import Mathlib

/-!
Verification of the Starfleet tasking-pipeline core against its source.

The definitions below are a shallow embedding of the Python sources:
`starfleet/account_index/plugins/starfleet_default_index/ship.py`,
`starfleet/account_index/resolvers.py`,
`starfleet/worker_ships/base_payload_schemas.py`,
`starfleet/starbase/main.py` and `starfleet/starbase/utils.py`.

Python dictionaries are modelled as association lists with replace-or-append
update (preserving insertion order, as CPython dicts do); Python sets of
account ids are modelled as `Finset String`; raised exceptions are modelled
with `Except PyErr`.  The `ou_map` built by the default account index is
modelled with an explicit reference store because the Python code aliases
the same mutable `set` object under several dictionary keys.
-/

namespace Starfleet

/-- Exception kinds raised by the embedded code paths. -/
inductive PyErr where
  | notImplementedError
  | validationError
  | invalidBucketError
  | noShipPluginError
  deriving DecidableEq, Repr

/-- Python `str.lower()` on an ASCII character. -/
def toLowerChar (c : Char) : Char :=
  if 'A' ≤ c ∧ c ≤ 'Z' then Char.ofNat (c.toNat + 32) else c

/-- Python `str.lower()` of an (ASCII) string, used wherever the index
normalizes dictionary keys. -/
def lowerStr (s : String) : String :=
  ⟨s.data.map toLowerChar⟩

/-- Lookup in an association list modelling a Python `dict.get`. -/
def lookupKey {κ α : Type} [DecidableEq κ] (m : List (κ × α)) (k : κ) : Option α :=
  (m.find? (fun p => p.1 = k)).map Prod.snd

/-- Python `d[k] = v`: replace the value in place if the key is present
(preserving position, as CPython dicts do), otherwise append the pair. -/
def setKey {κ α : Type} [DecidableEq κ] : List (κ × α) → κ → α → List (κ × α)
  | [], k, v => [(k, v)]
  | p :: rest, k, v => if p.1 = k then (k, v) :: rest else p :: setKey rest k v

/-- One element of an account's `Parents` chain in the index snapshot. -/
structure ParentOU where
  ouId : String
  ouName : String
  deriving DecidableEq, Repr

/-- The per-account snapshot record `{Name, Regions, Parents, Tags}` parsed by
`StarfleetDefaultAccountIndex.__init__`. -/
structure AccountData where
  name : String
  regions : List String
  parents : List ParentOU
  tags : List (String × String)
  deriving DecidableEq, Repr

/-- The state of `StarfleetDefaultAccountIndex` after `__init__`.  The
`ou_map` is represented by `ouKeys` (dict key to object reference) together
with `ouStore` (object reference to set contents) so that the aliasing of one
Python `set` object under several keys is modelled exactly. -/
structure DefaultIndex where
  account_ids : Finset String
  alias_map : List (String × String)
  regions_map : List (String × Finset String)
  ouKeys : List (String × Nat)
  ouStore : List (Nat × Finset String)
  ouNext : Nat
  tag_map : List (String × List (String × Finset String))

/-- Python `self.ou_map.get(key, set())`: an existing reference, or a fresh
empty set object (allocated but not yet bound to the key). -/
def ouGetOrAlloc (idx : DefaultIndex) (k : String) : Nat × DefaultIndex :=
  match lookupKey idx.ouKeys k with
  | some r => (r, idx)
  | none =>
      (idx.ouNext,
       { idx with ouStore := setKey idx.ouStore idx.ouNext ∅, ouNext := idx.ouNext + 1 })

/-- Python `mapping.add(account_id)` on the set object behind reference `r`. -/
def ouAddTo (idx : DefaultIndex) (r : Nat) (acct : String) : DefaultIndex :=
  { idx with ouStore := setKey idx.ouStore r (((lookupKey idx.ouStore r).getD ∅) ∪ {acct}) }

/-- Python `self.ou_map[key] = mapping`. -/
def ouBind (idx : DefaultIndex) (k : String) (r : Nat) : DefaultIndex :=
  { idx with ouKeys := setKey idx.ouKeys k r }

/-- The body of the `for org_unit in account["Parents"]` loop in
`StarfleetDefaultAccountIndex.__init__` (ship.py lines 81..90), including the
source's final line `self.ou_map[ou_name] = mapping_id`. -/
def processParent (acct : String) (idx : DefaultIndex) (p : ParentOU) : DefaultIndex :=
  let ouId := (lowerStr p.ouId)
  let ouName := (lowerStr p.ouName)
  let (rId, idx) := ouGetOrAlloc idx ouId
  let (rName, idx) := ouGetOrAlloc idx ouName
  let idx := ouAddTo idx rId acct
  let idx := ouAddTo idx rName acct
  let idx := ouBind idx ouId rId
  ouBind idx ouName rId

/-- The body of the `for tag_name, tag_value in account["Tags"].items()` loop. -/
def processTag (acct : String) (idx : DefaultIndex) (tag : String × String) : DefaultIndex :=
  let normName := (lowerStr tag.1)
  let normValue := (lowerStr tag.2)
  let nameMapping := (lookupKey idx.tag_map normName).getD []
  let valueMapping := (lookupKey nameMapping normValue).getD ∅
  { idx with tag_map := setKey idx.tag_map normName (setKey nameMapping normValue (valueMapping ∪ {acct})) }

/-- The body of the `for account_id, account in account_dict.items()` loop of
`StarfleetDefaultAccountIndex.__init__`. -/
def processAccount (idx : DefaultIndex) (entry : String × AccountData) : DefaultIndex :=
  let acct := entry.1
  let a := entry.2
  let idx := { idx with account_ids := insert acct idx.account_ids }
  let idx := { idx with alias_map := setKey idx.alias_map (lowerStr a.name) acct }
  let idx := a.regions.foldl
    (fun idx region =>
      { idx with regions_map := setKey idx.regions_map region (((lookupKey idx.regions_map region).getD ∅) ∪ {acct}) })
    idx
  let idx := a.parents.foldl (processParent acct) idx
  a.tags.foldl (processTag acct) idx

/-- The empty index state before the snapshot loop runs. -/
def emptyIndex : DefaultIndex := ⟨∅, [], [], [], [], 0, []⟩

/-- The mapping-generation loop of `StarfleetDefaultAccountIndex.__init__`
applied to a parsed snapshot (a dict of account id to account record). -/
def buildDefaultIndex (snapshot : List (String × AccountData)) : DefaultIndex :=
  snapshot.foldl processAccount emptyIndex

/-- `StarfleetDefaultAccountIndex.get_accounts_by_id` (note: singular name in
the source): `ids.intersection(self.account_ids)`. -/
def DefaultIndex.get_accounts_by_id (idx : DefaultIndex) (ids : Finset String) : Finset String :=
  ids ∩ idx.account_ids

/-- `StarfleetDefaultAccountIndex.get_accounts_by_alias` (singular name in the
source): look each alias up lower-cased, keeping truthy results. -/
def DefaultIndex.get_accounts_by_alias (idx : DefaultIndex) (aliases : Finset String) : Finset String :=
  aliases.biUnion (fun al =>
    match lookupKey idx.alias_map (lowerStr al) with
    | some account => if account ≠ "" then {account} else ∅
    | none => ∅)

/-- `StarfleetDefaultAccountIndex.get_accounts_by_tag`:
`self.tag_map.get(tag_name.lower(), {}).get(tag_value.lower(), set())`. -/
def DefaultIndex.get_accounts_by_tag (idx : DefaultIndex) (tagName tagValue : String) : Finset String :=
  (lookupKey ((lookupKey idx.tag_map (lowerStr tagName)).getD []) (lowerStr tagValue)).getD ∅

/-- `StarfleetDefaultAccountIndex.get_accounts_by_ou`:
`self.ou_map.get(org_unit.lower(), set())`. -/
def DefaultIndex.get_accounts_by_ou (idx : DefaultIndex) (orgUnit : String) : Finset String :=
  match lookupKey idx.ouKeys (lowerStr orgUnit) with
  | some r => (lookupKey idx.ouStore r).getD ∅
  | none => ∅

/-- Per-region account lookup `self.regions_map.get(region, set())` used by
`get_accounts_by_regions`. -/
def DefaultIndex.regionLookup (idx : DefaultIndex) (region : String) : Finset String :=
  (lookupKey idx.regions_map region).getD ∅

/-- `StarfleetDefaultAccountIndex.get_all_accounts`. -/
def DefaultIndex.get_all_accounts (idx : DefaultIndex) : Finset String :=
  idx.account_ids

/-- The `AccountIndex` interface from `starfleet/account_index/schematics.py`,
as seen by the resolver through `ACCOUNT_INDEX.index`.  A method of a plugin
instance either returns a value or raises; `get_accounts_by_regions` returns a
dict, modelled as its key set paired with its per-region value function. -/
structure AccountIndexAPI where
  get_accounts_by_ids : Finset String → Except PyErr (Finset String)
  get_accounts_by_aliases : Finset String → Except PyErr (Finset String)
  get_accounts_by_ou : String → Except PyErr (Finset String)
  get_accounts_by_tag : String → String → Except PyErr (Finset String)
  get_accounts_by_regions : Finset String → Except PyErr (Finset String × (String → Finset String))
  get_all_accounts : Except PyErr (Finset String)
  get_org_roots : Except PyErr (Finset String)

/-- The effective method table of a `StarfleetDefaultAccountIndex` instance.
The source defines `get_accounts_by_id` and `get_accounts_by_alias` (singular)
and defines no `get_org_roots` at all, so the pluralised interface methods
called by the resolver fall through to the `AccountIndex` base class, which
raises `NotImplementedError`. -/
def defaultAPI (idx : DefaultIndex) : AccountIndexAPI where
  get_accounts_by_ids := fun _ => .error .notImplementedError
  get_accounts_by_aliases := fun _ => .error .notImplementedError
  get_accounts_by_ou := fun ou => .ok (idx.get_accounts_by_ou ou)
  get_accounts_by_tag := fun n v => .ok (idx.get_accounts_by_tag n v)
  get_accounts_by_regions := fun regions => .ok (regions, fun r => idx.regionLookup r)
  get_all_accounts := .ok idx.get_all_accounts
  get_org_roots := .error .notImplementedError

/-- A deserialized `AccountsSpecificationSchema` dict. -/
structure AccountSpec where
  by_ids : List String
  by_names : List String
  by_org_units : List String
  by_tags : List (String × String)
  deriving DecidableEq, Repr

/-- A deserialized `IncludeAccountsSpecificationSchema` dict. -/
structure IncludeSpec extends AccountSpec where
  all_accounts : Bool
  deriving DecidableEq, Repr

/-- A deserialized `BaseAccountPayloadTemplate` dict (the fields the resolver
reads).  `exclude_accounts` is `none` when the template carried none (the
schema's `load_default={}` yields a falsy empty dict). -/
structure AccountTemplate where
  include_accounts : IncludeSpec
  exclude_accounts : Option AccountSpec
  operate_in_org_root : Bool
  deriving DecidableEq, Repr

/-- A deserialized `BaseAccountRegionPayloadTemplate` dict.  After schema
validation both region fields are Python sets (an absent or empty
`exclude_regions` is falsy and is replaced by `set()` in the resolver). -/
structure AccountRegionTemplate extends AccountTemplate where
  include_regions : Finset String
  exclude_regions : Finset String

/-- `resolve_account_specification` (resolvers.py lines 98..121): the union of
the id, alias, OU and tag clause resolutions against the account index. -/
def resolve_account_specification (api : AccountIndexAPI) (spec : AccountSpec) :
    Except PyErr (Finset String) := do
  let byIds ← api.get_accounts_by_ids spec.by_ids.toFinset
  let byNames ← api.get_accounts_by_aliases spec.by_names.toFinset
  let byOUs ← spec.by_org_units.dedup.foldlM
    (fun acc ou => do
      let r ← api.get_accounts_by_ou ou
      pure (acc ∪ r)) (∅ : Finset String)
  let byTags ← spec.by_tags.foldlM
    (fun acc tag => do
      let r ← api.get_accounts_by_tag tag.1 tag.2
      pure (acc ∪ r)) (∅ : Finset String)
  pure (byIds ∪ byNames ∪ byOUs ∪ byTags)

/-- `resolve_include_account_specification` (resolvers.py lines 124..132). -/
def resolve_include_account_specification (api : AccountIndexAPI) (spec : IncludeSpec) :
    Except PyErr (Finset String) :=
  if spec.all_accounts then api.get_all_accounts
  else resolve_account_specification api spec.toAccountSpec

/-- `resolve_include_exclude` (resolvers.py lines 86..95). -/
def resolve_include_exclude (api : AccountIndexAPI) (t : AccountTemplate) :
    Except PyErr (Finset String) := do
  let included ← resolve_include_account_specification api t.include_accounts
  let excluded ← match t.exclude_accounts with
    | some spec => resolve_account_specification api spec
    | none => pure (∅ : Finset String)
  pure (included \ excluded)

/-- `resolve_worker_template_accounts` (resolvers.py lines 18..33). -/
def resolve_worker_template_accounts (api : AccountIndexAPI) (t : AccountTemplate) :
    Except PyErr (Finset String) := do
  let resolved ← resolve_include_exclude api t
  if !t.operate_in_org_root then do
    let orgRoots ← api.get_org_roots
    pure (resolved \ orgRoots)
  else
    pure resolved

/-- `resolve_worker_template_account_regions` (resolvers.py lines 36..83).
`scopeCfg` is `config["STARFLEET"].get("ScopeToRegions", [])`.  The returned
dict (account id to set of regions) is the list of key-value pairs in the
insertion order of the `for account in resolved_accounts` loop, with the set
iteration fixed to sorted order. -/
def resolve_worker_template_account_regions (api : AccountIndexAPI) (scopeCfg : List String)
    (t : AccountRegionTemplate) (orgRootCheck : Bool) :
    Except PyErr (List (String × Finset String)) := do
  let resolvedAccounts ← if orgRootCheck then resolve_worker_template_accounts api t.toAccountTemplate
    else resolve_include_exclude api t.toAccountTemplate
  let resolvedRegions := t.include_regions \ t.exclude_regions
  let scopedRegions := scopeCfg.toFinset
  let (dom, f) ← api.get_accounts_by_regions resolvedRegions
  let dom' := if scopedRegions ≠ ∅ then dom.filter (fun r => r ∈ scopedRegions) else dom
  pure ((resolvedAccounts.sort (· ≤ ·)).map (fun a => (a, dom'.filter (fun r => a ∈ f r))))

/-- Truthiness of `data.get(field)` on the dict produced by deserializing an
`IncludeAccountsSpecificationSchema`.  After a marshmallow `load`, the dict is
keyed by the snake_case field attribute names, so any other key (such as the
UpperCamelCase `data_key` spellings) yields `None`, which is falsy. -/
def includeSpecGetTruthy (s : IncludeSpec) (field : String) : Bool :=
  if field = "by_names" then !s.by_names.isEmpty
  else if field = "by_ids" then !s.by_ids.isEmpty
  else if field = "by_org_units" then !s.by_org_units.isEmpty
  else if field = "by_tags" then !s.by_tags.isEmpty
  else if field = "all_accounts" then s.all_accounts
  else false

/-- `IncludeAccountsSpecificationSchema.verify_schema` (base_payload_schemas.py
lines 88..121).  `original` is the raw input dict, recorded as field name
paired with the truthiness of its value (only truthiness is inspected).
Returns `true` iff the accumulated `errors` dict is non-empty, i.e. iff a
`ValidationError` is raised. -/
def verify_schema (s : IncludeSpec) (original : List (String × Bool)) : Bool :=
  if s.all_accounts then
    original.any (fun p => p.1 ≠ "AllAccounts" && p.2)
  else
    ["by_names", "ByIds", "ByOrgUnits", "ByTags"].all (fun f => !includeSpecGetTruthy s f)

/-- The region fields of a `BaseAccountRegionPayloadTemplate` before
`validate_regions` runs (both still author-supplied lists). -/
structure RegionsInput where
  include_regions : List String
  exclude_regions : List String
  deriving DecidableEq, Repr

/-- `BaseAccountRegionPayloadTemplate.validate_regions` (base_payload_schemas.py
lines 172..225), parameterized by the set of regions the SDK reports as
supported.  On success it returns the rewritten `(include_regions,
exclude_regions)` pair (both now Python sets); if the `errors` dict is
non-empty a `ValidationError` is raised. -/
def validate_regions (supported : Finset String) (d : RegionsInput) :
    Except PyErr (Finset String × Finset String) :=
  let includeErr :=
    if "ALL" ∈ d.include_regions then decide (d.include_regions.length > 1)
    else !(d.include_regions.toFinset \ supported = ∅ : Bool)
  let include' :=
    if "ALL" ∈ d.include_regions then supported else d.include_regions.toFinset
  let excludeErr :=
    if !d.exclude_regions.isEmpty then !(d.exclude_regions.toFinset \ supported = ∅ : Bool)
    else false
  let exclude' :=
    if !d.exclude_regions.isEmpty then d.exclude_regions.toFinset else (∅ : Finset String)
  if includeErr || excludeErr then .error .validationError
  else .ok (include', exclude')

/-- Hex digit value used by percent-decoding. -/
def hexVal (c : Char) : Option Nat :=
  if '0' ≤ c ∧ c ≤ '9' then some (c.toNat - 48)
  else if 'a' ≤ c ∧ c ≤ 'f' then some (c.toNat - 87)
  else if 'A' ≤ c ∧ c ≤ 'F' then some (c.toNat - 55)
  else none

/-- Character-level model of `urllib.parse.unquote_plus`: `+` becomes a space
and `%XX` hex escapes are decoded; malformed escapes pass through verbatim. -/
def unquotePlusAux : List Char → List Char
  | [] => []
  | '+' :: rest => ' ' :: unquotePlusAux rest
  | '%' :: a :: b :: rest =>
      match hexVal a, hexVal b with
      | some x, some y => Char.ofNat (16 * x + y) :: unquotePlusAux rest
      | _, _ => '%' :: unquotePlusAux (a :: b :: rest)
  | c :: rest => c :: unquotePlusAux rest

/-- `urllib.parse.unquote_plus` on a string. -/
def unquote_plus (s : String) : String :=
  ⟨unquotePlusAux s.data⟩

/-- Python `s.endswith(t)`, computed on the character lists. -/
def strEndsWith (s t : String) : Bool :=
  t.data.isSuffixOf s.data

/-- Python `s.startswith(t)`, computed on the character lists. -/
def strStartsWith (s t : String) : Bool :=
  t.data.isPrefixOf s.data

/-- The worker-ship configuration fields read by `_fan_out_s3_events`. -/
structure ShipConfig where
  invocationSources : List String
  templatePath : String
  deriving DecidableEq, Repr

/-- An S3 store-change record: bucket name and URL-encoded object key. -/
structure S3Record where
  bucket : String
  objectKey : String
  deriving DecidableEq, Repr

/-- The matching test of the `for ship_name, worker_ship in ships.items()`
loop of `_fan_out_s3_events`: exact match of a `.yaml` configured prefix, or
the configured prefix is a path prefix of the changed key. -/
def shipMatch (cfg : ShipConfig) (templateKey : String) : Bool :=
  (strEndsWith cfg.templatePath ".yaml" && cfg.templatePath = templateKey)
    || strStartsWith templateKey cfg.templatePath

/-- `_fan_out_s3_events` (main.py lines 139..189).  `ships` is the registry of
enabled workers paired with their configurations, in registry order.  Returns
the `(worker name, template path)` pair handed to `_fan_out_payload_logic`,
`none` when the record is dropped, or the raised error. -/
def fan_out_s3_events (configBucket : String) (ships : List (String × ShipConfig))
    (record : S3Record) : Except PyErr (Option (String × String)) :=
  if configBucket ≠ record.bucket then .error .invalidBucketError
  else if !strEndsWith (unquote_plus record.objectKey) ".yaml" then .ok none
  else
    match ships.find? (fun p => "S3" ∈ p.2.invocationSources &&
        shipMatch p.2 (unquote_plus record.objectKey)) with
    | some p => .ok (some (p.1, unquote_plus record.objectKey))
    | none => .ok none

/-- The record branch of `fan_out_payload` (main.py lines 104..110):
`_fan_out_payload_logic` — abstracted as `logic`, returning the messages it
enqueues — runs only when `_fan_out_s3_events` returned arguments. -/
def processS3Record {μ : Type} (logic : String × String → List μ) (configBucket : String)
    (ships : List (String × ShipConfig)) (record : S3Record) : Except PyErr (List μ) :=
  match fan_out_s3_events configBucket ships record with
  | .error e => .error e
  | .ok none => .ok []
  | .ok (some args) => .ok (logic args)

/-- One entry of an SQS `send_message_batch` call: the entry `Id` and the
message body.  Bodies are `json.dumps` snapshots, so they are recorded by
value at append time. -/
structure BatchEntry (β : Type) where
  eid : String
  body : β
  deriving DecidableEq, Repr

/-- The shared emit-and-flush skeleton of the fan-out loops in utils.py:
append each entry to the current batch and send the batch whenever it reaches
10 entries.  Returns the still-open batch and the list of sent batches. -/
def emitAll {β : Type} : List (BatchEntry β) → List (BatchEntry β) →
    List (List (BatchEntry β)) → List (BatchEntry β) × List (List (BatchEntry β))
  | [], batch, sent => (batch, sent)
  | e :: rest, batch, sent =>
      let batch' := batch ++ [e]
      if batch'.length = 10 then emitAll rest [] (sent ++ [batch'])
      else emitAll rest batch' sent

/-- The trailing `if batch: send_message_batch(...)` straggler send. -/
def finishBatches {β : Type} (p : List (BatchEntry β) × List (List (BatchEntry β))) :
    List (List (BatchEntry β)) :=
  if p.1.isEmpty then p.2 else p.2 ++ [p.1]

/-- `get_template_batch` (utils.py lines 69..83): batches of at most 10
stage-1 fan-out entries; the `Id` of the entry for template number
`start + offset` (offset counted from 1) is `str(start + offset)`, and the
body is the `{"worker_ship": ..., "template_prefix": ...}` pair. -/
def get_template_batch (workerName : String) (templates : List String) (start : Nat) :
    List (List (BatchEntry (String × String))) :=
  if templates.length ≤ start then []
  else
    (((templates.drop start).take 10).enumFrom (start + 1)).map
        (fun p => BatchEntry.mk (Nat.repr p.1) (workerName, p.2))
      :: get_template_batch workerName templates (start + 10)
termination_by templates.length - start

/-- A parsed template dict, generic in the value type; `strVal` injects the
strings the Starbase writes into template values. -/
abbrev TMap (α : Type) : Type := List (String × α)

/-- The `for account in accounts_to_operate_on` loop of `account_fanout`
(utils.py lines 113..121): set the template's `StarbaseAssignedAccount`, then
append a `json.dumps` snapshot with the account id as the entry `Id`. -/
def accountLoop {α : Type} (strVal : String → α) :
    List String → TMap α → List (BatchEntry (TMap α)) → List (List (BatchEntry (TMap α))) →
    TMap α × List (BatchEntry (TMap α)) × List (List (BatchEntry (TMap α)))
  | [], t, batch, sent => (t, batch, sent)
  | a :: rest, t, batch, sent =>
      let t' := setKey t "StarbaseAssignedAccount" (strVal a)
      let batch' := batch ++ [BatchEntry.mk a t']
      if batch'.length = 10 then accountLoop strVal rest t' [] (sent ++ [batch'])
      else accountLoop strVal rest t' batch' sent

/-- `account_fanout` (utils.py lines 94..126): resolve the target accounts; if
none, log and return without sending; otherwise run the account loop over the
original (pre-validation) template and send batches of at most 10, plus the
stragglers.  Set iteration is fixed to sorted order. -/
def account_fanout {α : Type} (strVal : String → α) (api : AccountIndexAPI)
    (verified : AccountTemplate) (original : TMap α) :
    Except PyErr (List (List (BatchEntry (TMap α)))) := do
  let accounts ← resolve_worker_template_accounts api verified
  if accounts = ∅ then
    pure []
  else
    let (_, batch, sent) := accountLoop strVal (accounts.sort (· ≤ ·)) original [] []
    pure (finishBatches (batch, sent))

/-- The `for region in regions` inner loop of `account_region_fanout` (utils.py
lines 157..164): set `StarbaseAssignedRegion` and append an entry whose `Id`
is the concatenation of the account id and the region. -/
def regionLoop {α : Type} (strVal : String → α) (a : String) :
    List String → TMap α → List (BatchEntry (TMap α)) → List (List (BatchEntry (TMap α))) →
    TMap α × List (BatchEntry (TMap α)) × List (List (BatchEntry (TMap α)))
  | [], t, batch, sent => (t, batch, sent)
  | r :: rest, t, batch, sent =>
      let t' := setKey t "StarbaseAssignedRegion" (strVal r)
      let batch' := batch ++ [BatchEntry.mk (a ++ r) t']
      if batch'.length = 10 then regionLoop strVal a rest t' [] (sent ++ [batch'])
      else regionLoop strVal a rest t' batch' sent

/-- The `for account, regions in accounts_regions_map.items()` outer loop of
`account_region_fanout` (utils.py lines 154..164): set
`StarbaseAssignedAccount` and run the inner region loop. -/
def accountRegionLoop {α : Type} (strVal : String → α) :
    List (String × List String) → TMap α → List (BatchEntry (TMap α)) →
    List (List (BatchEntry (TMap α))) →
    TMap α × List (BatchEntry (TMap α)) × List (List (BatchEntry (TMap α)))
  | [], t, batch, sent => (t, batch, sent)
  | (a, regions) :: rest, t, batch, sent =>
      let t' := setKey t "StarbaseAssignedAccount" (strVal a)
      let (t'', batch', sent') := regionLoop strVal a regions t' batch sent
      accountRegionLoop strVal rest t'' batch' sent'

/-- `account_region_fanout` (utils.py lines 129..169): resolve the
account-to-regions map; if the total number of pairs is zero, log and return
without sending; otherwise run the nested loops and send batches of at most
10, plus the stragglers.  Set iteration is fixed to sorted order. -/
def account_region_fanout {α : Type} (strVal : String → α) (api : AccountIndexAPI)
    (scopeCfg : List String) (verified : AccountRegionTemplate) (original : TMap α) :
    Except PyErr (List (List (BatchEntry (TMap α)))) := do
  let accountsRegions ← resolve_worker_template_account_regions api scopeCfg verified true
  let total := (accountsRegions.map (fun p => p.2.card)).sum
  if total = 0 then
    pure []
  else
    let pairs := accountsRegions.map (fun p => (p.1, p.2.sort (· ≤ ·)))
    let (_, batch, sent) := accountRegionLoop strVal pairs original [] []
    pure (finishBatches (batch, sent))

/-- Re-assigning the same dict key overwrites the previous assignment. -/
theorem setKey_setKey_same {κ α : Type} [DecidableEq κ] (m : List (κ × α)) (k : κ) (v w : α) :
    setKey (setKey m k v) k w = setKey m k w := by
  induction m with
  | nil => simp [setKey]
  | cons p rest ih =>
      by_cases h : p.1 = k
      · simp [setKey, h]
      · simp [setKey, h, ih]

/-- Re-assigning key `k` commutes past an intervening assignment to a
different key `k'` and collapses with the first assignment to `k`. -/
theorem setKey_swap_collapse {κ α : Type} [DecidableEq κ] (m : List (κ × α)) (k k' : κ)
    (hne : k' ≠ k) (v w v₂ : α) :
    setKey (setKey (setKey m k v) k' w) k v₂ = setKey (setKey m k v₂) k' w := by
  induction m with
  | nil => simp [setKey, hne, Ne.symm hne]
  | cons p rest ih =>
      by_cases hk : p.1 = k
      · simp [setKey, hk, hne, Ne.symm hne]
      · by_cases hk' : p.1 = k'
        · simp [setKey, hk, hk', hne, Ne.symm hne, setKey_setKey_same]
        · simp [setKey, hk, hk', ih]

/-- The emit-and-flush skeleton concatenates exactly the entries it is fed. -/
theorem emitAll_flatten {β : Type} (es : List (BatchEntry β)) :
    ∀ (batch : List (BatchEntry β)) (sent : List (List (BatchEntry β))),
      (emitAll es batch sent).2.flatten ++ (emitAll es batch sent).1 =
        sent.flatten ++ batch ++ es := by
  induction es with
  | nil => intro batch sent; simp [emitAll]
  | cons e rest ih =>
      intro batch sent
      rw [show emitAll (e :: rest) batch sent =
          if (batch ++ [e]).length = 10 then emitAll rest [] (sent ++ [batch ++ [e]])
          else emitAll rest (batch ++ [e]) sent from rfl]
      by_cases h : (batch ++ [e]).length = 10
      · rw [if_pos h, ih]
        simp
      · rw [if_neg h, ih]
        simp

/-- The straggler flush appends the still-open batch. -/
theorem finishBatches_flatten {β : Type} (p : List (BatchEntry β) × List (List (BatchEntry β))) :
    (finishBatches p).flatten = p.2.flatten ++ p.1 := by
  unfold finishBatches
  by_cases h : p.1.isEmpty
  · simp_all [List.isEmpty_iff]
  · simp [h]

/-- The messages sent by the emit-and-flush skeleton, including stragglers,
are exactly the entries fed in. -/
theorem finish_emitAll_flatten {β : Type} (es : List (BatchEntry β)) :
    (finishBatches (emitAll es [] [])).flatten = es := by
  have h := emitAll_flatten es [] []
  rw [finishBatches_flatten]
  simpa using h

/-- Every batch sent by the emit-and-flush skeleton has at most 10 entries,
with entry ids pairwise distinct, provided the full entry id sequence has no
duplicates. -/
theorem emitAll_batches_ok {β : Type} (es : List (BatchEntry β)) :
    ∀ (batch : List (BatchEntry β)) (sent : List (List (BatchEntry β))),
      (∀ b ∈ sent, b.length ≤ 10 ∧ (b.map BatchEntry.eid).Nodup) →
      batch.length < 10 →
      ((batch ++ es).map BatchEntry.eid).Nodup →
      ∀ b ∈ finishBatches (emitAll es batch sent), b.length ≤ 10 ∧ (b.map BatchEntry.eid).Nodup := by
  induction es with
  | nil =>
      intro batch sent hsent hlen hnodup b hb
      simp only [emitAll] at hb
      unfold finishBatches at hb
      by_cases hempty : batch.isEmpty
      · simp only [hempty, if_pos] at hb
        exact hsent b hb
      · simp only [hempty, if_neg] at hb
        rcases List.mem_append.mp hb with h | h
        · exact hsent b h
        · have hbatch : b = batch := by simpa using h
          subst hbatch
          refine ⟨Nat.le_of_lt hlen, ?_⟩
          simpa using hnodup
  | cons e rest ih =>
      intro batch sent hsent hlen hnodup b hb
      have hsplit : batch ++ e :: rest = (batch ++ [e]) ++ rest := by simp
      rw [hsplit] at hnodup
      simp only [List.map_append] at hnodup
      have hparts := List.nodup_append.mp hnodup
      rw [show emitAll (e :: rest) batch sent =
          if (batch ++ [e]).length = 10 then emitAll rest [] (sent ++ [batch ++ [e]])
          else emitAll rest (batch ++ [e]) sent from rfl] at hb
      by_cases h : (batch ++ [e]).length = 10
      · rw [if_pos h] at hb
        refine ih [] (sent ++ [batch ++ [e]]) ?_ (by simp) ?_ b hb
        · intro b' hb'
          rcases List.mem_append.mp hb' with h' | h'
          · exact hsent b' h'
          · have hb'' : b' = batch ++ [e] := by simpa using h'
            subst hb''
            exact ⟨by simp [h], by simpa using hparts.1⟩
        · simpa using hparts.2.1
      · rw [if_neg h] at hb
        refine ih (batch ++ [e]) sent hsent ?_ ?_ b hb
        · have hle : (batch ++ [e]).length = batch.length + 1 := by simp
          omega
        · simpa using hnodup

/-- Decimal value of a digit character string, used to invert `Nat.repr`. -/
def digitsVal (l : List Char) : Nat :=
  l.foldl (fun acc c => acc * 10 + (c.toNat - 48)) 0

/-- The accumulator of `Nat.toDigitsCore` is a suffix of its output. -/
theorem toDigitsCore_eq_append (b : Nat) :
    ∀ (f n : Nat) (acc : List Char),
      Nat.toDigitsCore b f n acc = Nat.toDigitsCore b f n [] ++ acc := by
  intro f
  induction f with
  | zero => intro n acc; simp [Nat.toDigitsCore]
  | succ f ih =>
      intro n acc
      rw [show Nat.toDigitsCore b (f + 1) n acc =
          (if n / b = 0 then Nat.digitChar (n % b) :: acc
           else Nat.toDigitsCore b f (n / b) (Nat.digitChar (n % b) :: acc)) from rfl]
      rw [show Nat.toDigitsCore b (f + 1) n [] =
          (if n / b = 0 then [Nat.digitChar (n % b)]
           else Nat.toDigitsCore b f (n / b) [Nat.digitChar (n % b)]) from rfl]
      by_cases h : n / b = 0
      · simp [h]
      · rw [if_neg h, if_neg h, ih (n / b) (Nat.digitChar (n % b) :: acc),
          ih (n / b) [Nat.digitChar (n % b)], List.append_assoc]
        rfl

/-- A decimal digit character decodes to its value. -/
theorem digitChar_decode (d : Nat) (hd : d < 10) : (Nat.digitChar d).toNat - 48 = d := by
  interval_cases d <;> rfl

/-- Folding the decimal decode over an appended digit. -/
theorem digitsVal_append_digit (l : List Char) (c : Char) :
    digitsVal (l ++ [c]) = digitsVal l * 10 + (c.toNat - 48) := by
  simp [digitsVal, List.foldl_append]

/-- `Nat.toDigitsCore` with enough fuel produces the decimal expansion of its
input: decoding it returns the input. -/
theorem digitsVal_toDigitsCore :
    ∀ (f n : Nat), n < f → digitsVal (Nat.toDigitsCore 10 f n []) = n := by
  intro f
  induction f with
  | zero => intro n h; omega
  | succ f ih =>
      intro n h
      rw [show Nat.toDigitsCore 10 (f + 1) n [] =
          (if n / 10 = 0 then [Nat.digitChar (n % 10)]
           else Nat.toDigitsCore 10 f (n / 10) [Nat.digitChar (n % 10)]) from rfl]
      by_cases hdiv : n / 10 = 0
      · rw [if_pos hdiv]
        have hn : n < 10 := by omega
        have hmod : n % 10 = n := Nat.mod_eq_of_lt hn
        rw [hmod]
        simp [digitsVal, digitChar_decode n hn]
      · rw [if_neg hdiv]
        rw [toDigitsCore_eq_append, digitsVal_append_digit]
        have hpos : 0 < n := by omega
        have hdivlt : n / 10 < n := Nat.div_lt_self hpos (by norm_num)
        have hlt : n / 10 < f := by omega
        have hmodlt : n % 10 < 10 := Nat.mod_lt n (by norm_num)
        rw [ih (n / 10) hlt, digitChar_decode (n % 10) hmodlt]
        omega

/-- Decoding recovers a natural number from its decimal string. -/
theorem digitsVal_repr (n : Nat) : digitsVal (Nat.repr n).data = n := by
  have : (Nat.repr n).data = Nat.toDigitsCore 10 (n + 1) n [] := rfl
  rw [this]
  exact digitsVal_toDigitsCore (n + 1) n (Nat.lt_succ_self n)

/-- Decimal string representations of distinct naturals are distinct. -/
theorem repr_injective : Function.Injective Nat.repr := by
  intro a b h
  have := congrArg (fun s => digitsVal s.data) h
  simpa [digitsVal_repr] using this

/-- The batching of a long entry list is insensitive to splitting the list. -/
theorem emitAll_append {β : Type} (es1 : List (BatchEntry β)) :
    ∀ (es2 : List (BatchEntry β)) (batch : List (BatchEntry β)) (sent : List (List (BatchEntry β))),
      emitAll (es1 ++ es2) batch sent =
        emitAll es2 (emitAll es1 batch sent).1 (emitAll es1 batch sent).2 := by
  induction es1 with
  | nil => intro es2 batch sent; rfl
  | cons e rest ih =>
      intro es2 batch sent
      rw [show (e :: rest) ++ es2 = e :: (rest ++ es2) from rfl]
      rw [show emitAll (e :: (rest ++ es2)) batch sent =
          (if (batch ++ [e]).length = 10 then emitAll (rest ++ es2) [] (sent ++ [batch ++ [e]])
           else emitAll (rest ++ es2) (batch ++ [e]) sent) from rfl]
      rw [show emitAll (e :: rest) batch sent =
          (if (batch ++ [e]).length = 10 then emitAll rest [] (sent ++ [batch ++ [e]])
           else emitAll rest (batch ++ [e]) sent) from rfl]
      by_cases h : (batch ++ [e]).length = 10
      · rw [if_pos h, if_pos h, ih]
      · rw [if_neg h, if_neg h, ih]

/-- The `account_fanout` loop is the emit-and-flush skeleton run over one
entry per account, each carrying a `json.dumps` snapshot of the template with
`StarbaseAssignedAccount` set to that entry's own account: assignments made
for later accounts do not alter bodies appended (and possibly already sent)
earlier. -/
theorem accountLoop_eq_emitAll {α : Type} (sv : String → α) (l : List String) :
    ∀ (t : TMap α) (batch : List (BatchEntry (TMap α))) (sent : List (List (BatchEntry (TMap α)))),
      (accountLoop sv l t batch sent).2 =
        emitAll (l.map (fun a => BatchEntry.mk a (setKey t "StarbaseAssignedAccount" (sv a))))
          batch sent := by
  induction l with
  | nil => intro t batch sent; rfl
  | cons a rest ih =>
      intro t batch sent
      simp only [List.map_cons]
      rw [show accountLoop sv (a :: rest) t batch sent =
          (if (batch ++ [BatchEntry.mk a (setKey t "StarbaseAssignedAccount" (sv a))]).length = 10
           then accountLoop sv rest (setKey t "StarbaseAssignedAccount" (sv a)) []
             (sent ++ [batch ++ [BatchEntry.mk a (setKey t "StarbaseAssignedAccount" (sv a))]])
           else accountLoop sv rest (setKey t "StarbaseAssignedAccount" (sv a))
             (batch ++ [BatchEntry.mk a (setKey t "StarbaseAssignedAccount" (sv a))]) sent) from rfl]
      rw [show emitAll (BatchEntry.mk a (setKey t "StarbaseAssignedAccount" (sv a)) ::
            rest.map (fun a' => BatchEntry.mk a' (setKey t "StarbaseAssignedAccount" (sv a'))))
            batch sent =
          (if (batch ++ [BatchEntry.mk a (setKey t "StarbaseAssignedAccount" (sv a))]).length = 10
           then emitAll (rest.map (fun a' => BatchEntry.mk a'
             (setKey t "StarbaseAssignedAccount" (sv a')))) []
             (sent ++ [batch ++ [BatchEntry.mk a (setKey t "StarbaseAssignedAccount" (sv a))]])
           else emitAll (rest.map (fun a' => BatchEntry.mk a'
             (setKey t "StarbaseAssignedAccount" (sv a'))))
             (batch ++ [BatchEntry.mk a (setKey t "StarbaseAssignedAccount" (sv a))]) sent) from rfl]
      have hmap : rest.map (fun a' => BatchEntry.mk a'
            (setKey (setKey t "StarbaseAssignedAccount" (sv a)) "StarbaseAssignedAccount" (sv a'))) =
          rest.map (fun a' => BatchEntry.mk a' (setKey t "StarbaseAssignedAccount" (sv a'))) :=
        List.map_congr_left (fun a' _ => by rw [setKey_setKey_same])
      by_cases h : (batch ++ [BatchEntry.mk a (setKey t "StarbaseAssignedAccount" (sv a))]).length = 10
      · rw [if_pos h, if_pos h, ih, hmap]
      · rw [if_neg h, if_neg h, ih, hmap]

/-- The template body shipped for the pair `(a, r)` by the account/region
fan-out: the original template with `StarbaseAssignedAccount` set to `a` and
`StarbaseAssignedRegion` set to `r`. -/
def assignPair {α : Type} (sv : String → α) (t : TMap α) (a r : String) : TMap α :=
  setKey (setKey t "StarbaseAssignedAccount" (sv a)) "StarbaseAssignedRegion" (sv r)

/-- Setting the region key of a pair-assigned template re-assigns the pair. -/
theorem assignPair_set_region {α : Type} (sv : String → α) (t : TMap α) (a r r' : String) :
    setKey (assignPair sv t a r) "StarbaseAssignedRegion" (sv r') = assignPair sv t a r' := by
  unfold assignPair
  rw [setKey_setKey_same]

/-- Re-assigning both keys of a pair-assigned template gives the same result
as assigning the fresh pair on the underlying template. -/
theorem assignPair_assignPair {α : Type} (sv : String → α) (t : TMap α) (a r a' r' : String) :
    assignPair sv (assignPair sv t a r) a' r' = assignPair sv t a' r' := by
  unfold assignPair
  rw [setKey_swap_collapse t "StarbaseAssignedAccount" "StarbaseAssignedRegion" (by decide)
    (sv a) (sv r) (sv a'), setKey_setKey_same]

/-- Re-assigning a pair after only the account key was set collapses the stale
account assignment. -/
theorem assignPair_set_account {α : Type} (sv : String → α) (t : TMap α) (a a' r' : String) :
    assignPair sv (setKey t "StarbaseAssignedAccount" (sv a)) a' r' = assignPair sv t a' r' := by
  unfold assignPair
  rw [setKey_setKey_same]

/-- The inner region loop is the emit-and-flush skeleton over one entry per
region, with entry id `account ++ region` and body the pair assignment; the
final template state is the region fold. -/
theorem regionLoop_eq_emitAll {α : Type} (sv : String → α) (a : String) (rs : List String) :
    ∀ (t : TMap α) (batch : List (BatchEntry (TMap α))) (sent : List (List (BatchEntry (TMap α)))),
      regionLoop sv a rs t batch sent =
        (rs.foldl (fun t' r => setKey t' "StarbaseAssignedRegion" (sv r)) t,
         emitAll (rs.map (fun r => BatchEntry.mk (a ++ r) (setKey t "StarbaseAssignedRegion" (sv r))))
           batch sent) := by
  induction rs with
  | nil => intro t batch sent; rfl
  | cons r rest ih =>
      intro t batch sent
      simp only [List.map_cons, List.foldl_cons]
      rw [show regionLoop sv a (r :: rest) t batch sent =
          (if (batch ++ [BatchEntry.mk (a ++ r) (setKey t "StarbaseAssignedRegion" (sv r))]).length = 10
           then regionLoop sv a rest (setKey t "StarbaseAssignedRegion" (sv r)) []
             (sent ++ [batch ++ [BatchEntry.mk (a ++ r) (setKey t "StarbaseAssignedRegion" (sv r))]])
           else regionLoop sv a rest (setKey t "StarbaseAssignedRegion" (sv r))
             (batch ++ [BatchEntry.mk (a ++ r) (setKey t "StarbaseAssignedRegion" (sv r))]) sent) from rfl]
      rw [show emitAll (BatchEntry.mk (a ++ r) (setKey t "StarbaseAssignedRegion" (sv r)) ::
            rest.map (fun r' => BatchEntry.mk (a ++ r') (setKey t "StarbaseAssignedRegion" (sv r'))))
            batch sent =
          (if (batch ++ [BatchEntry.mk (a ++ r) (setKey t "StarbaseAssignedRegion" (sv r))]).length = 10
           then emitAll (rest.map (fun r' => BatchEntry.mk (a ++ r')
             (setKey t "StarbaseAssignedRegion" (sv r')))) []
             (sent ++ [batch ++ [BatchEntry.mk (a ++ r) (setKey t "StarbaseAssignedRegion" (sv r))]])
           else emitAll (rest.map (fun r' => BatchEntry.mk (a ++ r')
             (setKey t "StarbaseAssignedRegion" (sv r'))))
             (batch ++ [BatchEntry.mk (a ++ r) (setKey t "StarbaseAssignedRegion" (sv r))]) sent) from rfl]
      have hmap : rest.map (fun r' => BatchEntry.mk (a ++ r')
            (setKey (setKey t "StarbaseAssignedRegion" (sv r)) "StarbaseAssignedRegion" (sv r'))) =
          rest.map (fun r' => BatchEntry.mk (a ++ r') (setKey t "StarbaseAssignedRegion" (sv r'))) :=
        List.map_congr_left (fun r' _ => by rw [setKey_setKey_same])
      by_cases h : (batch ++ [BatchEntry.mk (a ++ r) (setKey t "StarbaseAssignedRegion" (sv r))]).length = 10
      · rw [if_pos h, if_pos h, ih, hmap]
      · rw [if_neg h, if_neg h, ih, hmap]

/-- Folding region assignments over a template whose future pair assignments
agree with `t0` preserves that agreement, once the account key has been set. -/
theorem foldRegions_preserves {α : Type} (sv : String → α) (t0 : TMap α) (a1 : String)
    (rs : List String) :
    ∀ (t : TMap α), (∀ a r, assignPair sv t a r = assignPair sv t0 a r) →
      ∀ a r, assignPair sv
          (rs.foldl (fun t' r' => setKey t' "StarbaseAssignedRegion" (sv r'))
            (setKey t "StarbaseAssignedAccount" (sv a1))) a r = assignPair sv t0 a r := by
  cases rs with
  | nil =>
      intro t hQ a r
      simp only [List.foldl_nil]
      rw [assignPair_set_account, hQ]
  | cons r1 rest =>
      intro t hQ a r
      simp only [List.foldl_cons]
      rw [show setKey (setKey t "StarbaseAssignedAccount" (sv a1)) "StarbaseAssignedRegion" (sv r1) =
          assignPair sv t a1 r1 from rfl]
      induction rest generalizing r1 with
      | nil =>
          simp only [List.foldl_nil]
          rw [assignPair_assignPair, hQ]
      | cons r2 rest2 ih =>
          simp only [List.foldl_cons]
          rw [assignPair_set_region]
          exact ih r2

/-- The outer account/region loop is the emit-and-flush skeleton over the
flattened pair entries, each carrying a `json.dumps` snapshot of the template
with both `Starbase` keys set for that entry's own pair. -/
theorem accountRegionLoop_eq_emitAll {α : Type} (sv : String → α) (t0 : TMap α)
    (pairs : List (String × List String)) :
    ∀ (t : TMap α) (batch : List (BatchEntry (TMap α))) (sent : List (List (BatchEntry (TMap α)))),
      (∀ a r, assignPair sv t a r = assignPair sv t0 a r) →
      (accountRegionLoop sv pairs t batch sent).2 =
        emitAll (pairs.flatMap (fun p => p.2.map (fun r => BatchEntry.mk (p.1 ++ r)
          (assignPair sv t0 p.1 r)))) batch sent := by
  induction pairs with
  | nil => intro t batch sent _; rfl
  | cons p rest ih =>
      intro t batch sent hQ
      obtain ⟨a, rs⟩ := p
      rw [show accountRegionLoop sv ((a, rs) :: rest) t batch sent =
          (let res := regionLoop sv a rs (setKey t "StarbaseAssignedAccount" (sv a)) batch sent
           accountRegionLoop sv rest res.1 res.2.1 res.2.2) from rfl]
      rw [regionLoop_eq_emitAll]
      simp only [List.flatMap_cons]
      rw [emitAll_append]
      have hentries : rs.map (fun r => BatchEntry.mk (a ++ r)
            (setKey (setKey t "StarbaseAssignedAccount" (sv a)) "StarbaseAssignedRegion" (sv r))) =
          rs.map (fun r => BatchEntry.mk (a ++ r) (assignPair sv t0 a r)) :=
        List.map_congr_left (fun r _ => by
          rw [show setKey (setKey t "StarbaseAssignedAccount" (sv a)) "StarbaseAssignedRegion" (sv r) =
              assignPair sv t a r from rfl, hQ])
      rw [ih _ _ _ (foldRegions_preserves sv t0 a rs t hQ), hentries]

/-- Every stage-1 template batch has at most 10 entries with distinct ids. -/
theorem get_template_batch_ok (w : String) (templates : List String) :
    ∀ (fuel start : Nat), templates.length - start ≤ fuel →
      ∀ b ∈ get_template_batch w templates start,
        b.length ≤ 10 ∧ (b.map BatchEntry.eid).Nodup := by
  intro fuel
  induction fuel with
  | zero =>
      intro start hfuel b hb
      rw [get_template_batch, if_pos (by omega)] at hb
      simp at hb
  | succ fuel ih =>
      intro start hfuel b hb
      rw [get_template_batch] at hb
      by_cases hlen : templates.length ≤ start
      · rw [if_pos hlen] at hb
        simp at hb
      · rw [if_neg hlen] at hb
        rcases List.mem_cons.mp hb with hhead | htail
        · subst hhead
          constructor
          · rw [List.length_map, List.enumFrom_length]
            have := List.length_take_le 10 (templates.drop start)
            omega
          · have hids : ((((templates.drop start).take 10).enumFrom (start + 1)).map
                (fun p => BatchEntry.mk (Nat.repr p.1) (w, p.2))).map BatchEntry.eid =
                (List.range' (start + 1) ((templates.drop start).take 10).length).map Nat.repr := by
              rw [List.map_map, ← List.enumFrom_map_fst (start + 1) ((templates.drop start).take 10),
                List.map_map]
              rfl
            rw [hids]
            exact (List.nodup_range' _ _).map repr_injective
        · exact ih (start + 10) (by omega) b htail

/-- The flattened stage-1 entry list enumerates the worker's remaining
templates with consecutive integer ids. -/
theorem get_template_batch_flatten (w : String) (templates : List String) :
    ∀ (fuel start : Nat), templates.length - start ≤ fuel →
      (get_template_batch w templates start).flatten =
        ((templates.drop start).enumFrom (start + 1)).map
          (fun p => BatchEntry.mk (Nat.repr p.1) (w, p.2)) := by
  intro fuel
  induction fuel with
  | zero =>
      intro start hfuel
      rw [get_template_batch, if_pos (by omega),
        List.drop_eq_nil_of_le (by omega : templates.length ≤ start)]
      rfl
  | succ fuel ih =>
      intro start hfuel
      rw [get_template_batch]
      by_cases hlen : templates.length ≤ start
      · rw [if_pos hlen, List.drop_eq_nil_of_le hlen]
        rfl
      · rw [if_neg hlen]
        rw [List.flatten_cons, ih (start + 10) (by omega)]
        have hsplit : templates.drop start =
            (templates.drop start).take 10 ++ templates.drop (start + 10) := by
          rw [← List.drop_drop 10 start templates]
          exact (List.take_append_drop 10 (templates.drop start)).symm
        nth_rewrite 2 [hsplit]
        rw [List.enumFrom_append, List.map_append]
        by_cases hrest : templates.drop (start + 10) = []
        · rw [hrest]
          simp
        · have htake : ((templates.drop start).take 10).length = 10 := by
            have h1 : (templates.drop start).length = templates.length - start :=
              List.length_drop start templates
            have h2 : templates.drop (start + 10) ≠ [] := hrest
            have h3 : templates.length - (start + 10) > 0 := by
              by_contra hc
              exact h2 (List.drop_eq_nil_of_le (by omega))
            rw [List.length_take]
            omega
          rw [htake]

/-- Snapshot record of a first test account whose only parent OU
`{Id: ou-1, Name: Shared}` shares its name with another account's parent. -/
def accountOne : AccountData :=
  { name := "Account One", regions := ["us-east-1"],
    parents := [⟨"ou-1", "Shared"⟩], tags := [("Env", "Test")] }

/-- Snapshot record of a second test account with parent
`{Id: ou-2, Name: Shared}`. -/
def accountTwo : AccountData :=
  { name := "Account Two", regions := ["us-east-1"],
    parents := [⟨"ou-2", "Shared"⟩], tags := [("Env", "Test")] }

/-- A two-account snapshot in which two different parent OUs share the name
`Shared`. -/
def sharedNameSnapshot : List (String × AccountData) :=
  [("000000000001", accountOne), ("000000000002", accountTwo)]

/-- C1: the claim states that `resolve_account_specification` against the
default account index resolves ids via the index id lookup and never raises.
In the source, the resolver calls `get_accounts_by_ids` and
`get_accounts_by_aliases` (plural), but `StarfleetDefaultAccountIndex` only
defines `get_accounts_by_id` and `get_accounts_by_alias` (singular), so the
calls hit the `AccountIndex` base class and raise `NotImplementedError` for
every snapshot and every selector — the repository's own tests call the
plural names and expect results. -/
theorem claim1_default_index_spec_resolution_raises
    (snapshot : List (String × AccountData)) (spec : AccountSpec) :
    resolve_account_specification (defaultAPI (buildDefaultIndex snapshot)) spec =
      .error .notImplementedError := rfl

/-- C2: the claim states that an `all_accounts` template completes without
error against the default index, removing org roots when
`operate_in_org_root` is false.  `StarfleetDefaultAccountIndex` defines no
`get_org_roots` at all (and builds no org-root set), so the org-root
subtraction raises `NotImplementedError` — the repository's own test
`test_get_org_roots` expects the set of org roots instead. -/
theorem claim2_all_accounts_org_root_subtraction_raises
    (snapshot : List (String × AccountData)) (spec : AccountSpec) :
    resolve_worker_template_accounts (defaultAPI (buildDefaultIndex snapshot))
      { include_accounts := { toAccountSpec := spec, all_accounts := true },
        exclude_accounts := none, operate_in_org_root := false } =
      .error .notImplementedError := rfl

/-- An include selector carrying only a non-empty `ByIds` clause. -/
def byIdsOnlySpec : IncludeSpec :=
  { by_ids := ["000000000001"], by_names := [], by_org_units := [], by_tags := [],
    all_accounts := false }

/-- C3: the claim states that an include selector with only `ByIds` non-empty
passes validation.  `verify_schema` checks `data.get` for the keys
`["by_names", "ByIds", "ByOrgUnits", "ByTags"]`, but the deserialized data is
keyed in snake_case, so the three UpperCamelCase keys never match and the
selector is rejected with the missing-account-field error, contradicting the
error message's own instructions. -/
theorem claim3_by_ids_only_selector_rejected :
    verify_schema byIdsOnlySpec [("ByIds", true)] = true ∧
    byIdsOnlySpec.all_accounts = false ∧ byIdsOnlySpec.by_ids ≠ [] := by
  decide

/-- C4: the claim states that after the index build every account id is a
member of the OU map entry keyed by each parent's lower-cased name, including
when two different parents share a name.  The build loop computes
`mapping_name` but stores `mapping_id` under the name key
(`self.ou_map[ou_name] = mapping_id`), so with two accounts whose distinct
parent OUs are both named `Shared`, the `shared` entry ends up holding only
the second account: account `000000000001` is lost from it (and leaks into
the `ou-1` entry's aliased set instead). -/
theorem claim4_ou_name_entry_drops_account :
    (⟨"ou-1", "Shared"⟩ : ParentOU) ∈ accountOne.parents ∧
    ((buildDefaultIndex sharedNameSnapshot).get_accounts_by_ou "Shared").val =
      {"000000000002"} ∧
    ((buildDefaultIndex sharedNameSnapshot).get_accounts_by_ou "ou-1").val =
      {"000000000001", "000000000002"} := by
  exact ⟨by decide, by decide, by decide⟩

/-- C8: a store-change record for a bucket other than the configured
`TemplateBucket` raises `InvalidBucketError` before any enqueue, and a
matching-bucket record whose URL-decoded key does not end in `.yaml` is
dropped (no error, no messages). -/
theorem claim8_wrong_bucket_raises_non_yaml_dropped {μ : Type}
    (logic : String × String → List μ) (configBucket : String)
    (ships : List (String × ShipConfig)) (record : S3Record) :
    (record.bucket ≠ configBucket →
      processS3Record logic configBucket ships record = .error .invalidBucketError) ∧
    (record.bucket = configBucket →
      strEndsWith (unquote_plus record.objectKey) ".yaml" = false →
      processS3Record logic configBucket ships record = .ok []) := by
  constructor
  · intro hne
    unfold processS3Record fan_out_s3_events
    rw [if_pos (Ne.symm hne)]
  · intro heq hyaml
    unfold processS3Record fan_out_s3_events
    rw [if_neg (by simp [heq]), hyaml]
    rfl

/-- Witness for C8 at a concrete configuration and two concrete records. -/
theorem claim8_witness :
    processS3Record (fun _ => ([] : List Nat)) "template-bucket" []
      ⟨"wrong-bucket", "W1/template1.yaml"⟩ = .error .invalidBucketError ∧
    processS3Record (fun _ => ([] : List Nat)) "template-bucket" []
      ⟨"template-bucket", "W1/readme.txt"⟩ = .ok [] :=
  ⟨(claim8_wrong_bucket_raises_non_yaml_dropped (fun _ => ([] : List Nat)) "template-bucket" []
      ⟨"wrong-bucket", "W1/template1.yaml"⟩).1 (by decide),
   (claim8_wrong_bucket_raises_non_yaml_dropped (fun _ => ([] : List Nat)) "template-bucket" []
      ⟨"template-bucket", "W1/readme.txt"⟩).2 rfl (by decide)⟩

/-- C9: only the literal string `ALL` in `IncludeRegions` expands to the full
supported-region set; any other capitalization such as `All` (used in the
schema class's own docstring example) is treated as an ordinary region name
and, not being supported, fails validation. -/
theorem claim9_include_regions_all_case_sensitive (supported : Finset String)
    (d : RegionsInput) :
    ("All" ∈ d.include_regions → "ALL" ∉ d.include_regions → "All" ∉ supported →
      validate_regions supported d = .error .validationError) ∧
    (validate_regions supported { include_regions := ["ALL"], exclude_regions := [] } =
      .ok (supported, ∅)) := by
  constructor
  · intro hAll hALL hsup
    unfold validate_regions
    have hmem : "All" ∈ d.include_regions.toFinset \ supported := by
      rw [Finset.mem_sdiff, List.mem_toFinset]
      exact ⟨hAll, hsup⟩
    have hne : ¬(d.include_regions.toFinset \ supported = ∅) := by
      intro h
      rw [h] at hmem
      exact absurd hmem (Finset.not_mem_empty _)
    simp [hALL, hne]
  · rfl

/-- Witness for C9: with `us-east-1` the only supported region, `All` is
rejected while `ALL` alone expands to the whole supported set. -/
theorem claim9_witness :
    validate_regions {"us-east-1"} { include_regions := ["All"], exclude_regions := [] } =
      .error .validationError ∧
    validate_regions {"us-east-1"} { include_regions := ["ALL"], exclude_regions := [] } =
      .ok ({"us-east-1"}, ∅) :=
  ⟨(claim9_include_regions_all_case_sensitive {"us-east-1"}
      { include_regions := ["All"], exclude_regions := [] }).1 (by decide) (by decide) (by decide),
   (claim9_include_regions_all_case_sensitive {"us-east-1"}
      { include_regions := ["All"], exclude_regions := [] }).2⟩

/-- C10: a store-change record is mapped only to workers whose
`InvocationSources` contains `S3`: a matching worker found by the loop always
listens to S3 and matches the decoded key, and when no S3-listening worker
matches the key — even if a non-S3 worker's prefix would match — the record
is dropped by returning `none` rather than raising. -/
theorem claim10_s3_worker_matching (configBucket : String)
    (ships : List (String × ShipConfig)) (record : S3Record)
    (hbucket : configBucket = record.bucket)
    (hyaml : strEndsWith (unquote_plus record.objectKey) ".yaml" = true) :
    (∀ name tp, fan_out_s3_events configBucket ships record = .ok (some (name, tp)) →
      tp = unquote_plus record.objectKey ∧
      ∃ cfg, (name, cfg) ∈ ships ∧ "S3" ∈ cfg.invocationSources ∧ shipMatch cfg tp = true) ∧
    ((∀ p ∈ ships, "S3" ∈ p.2.invocationSources →
        shipMatch p.2 (unquote_plus record.objectKey) = false) →
      fan_out_s3_events configBucket ships record = .ok none) := by
  unfold fan_out_s3_events
  rw [if_neg (by simp [hbucket]), hyaml]
  constructor
  · intro name tp hfind
    simp only [Bool.not_true, if_neg (by simp : ¬(false = true))] at hfind
    cases hf : ships.find? (fun p => decide ("S3" ∈ p.2.invocationSources) &&
        shipMatch p.2 (unquote_plus record.objectKey)) with
    | none => rw [hf] at hfind; exact absurd hfind (by simp)
    | some q =>
        rw [hf] at hfind
        have hq : q.1 = name ∧ unquote_plus record.objectKey = tp := by
          have : Except.ok (ε := PyErr) (some (q.1, unquote_plus record.objectKey)) =
              .ok (some (name, tp)) := hfind
          have h2 := Option.some.inj (Except.ok.inj this)
          exact ⟨congrArg Prod.fst h2, congrArg Prod.snd h2⟩
        have hpred := List.find?_some hf
        have hmem := List.mem_of_find?_eq_some hf
        rw [Bool.and_eq_true] at hpred
        refine ⟨hq.2.symm, q.2, ?_, ?_, ?_⟩
        · rw [← hq.1]
          exact hmem
        · exact of_decide_eq_true hpred.1
        · rw [← hq.2]
          exact hpred.2
  · intro hnone
    simp only [Bool.not_true, if_neg (by simp : ¬(false = true))]
    have hf : ships.find? (fun p => decide ("S3" ∈ p.2.invocationSources) &&
        shipMatch p.2 (unquote_plus record.objectKey)) = none := by
      rw [List.find?_eq_none]
      intro p hp
      rw [Bool.and_eq_true, not_and]
      intro hs3
      rw [hnone p hp (of_decide_eq_true hs3)]
      simp
    rw [hf]

/-- C5: for an ACCOUNT fan-out whose resolved target set is non-empty,
exactly one message is enqueued per target account (the flattened entry ids
enumerate the resolved set); every message body — including bodies already
handed to earlier `send_message_batch` calls — equals the originally fetched
template with `StarbaseAssignedAccount` set to that message's own target
account, because `json.dumps` snapshots the dict at append time; and an
empty resolved set enqueues nothing and raises nothing. -/
theorem claim5_account_fanout_messages {α : Type} (sv : String → α) (api : AccountIndexAPI)
    (t : AccountTemplate) (original : TMap α) (accounts : Finset String)
    (hres : resolve_worker_template_accounts api t = .ok accounts) :
    (accounts = ∅ → account_fanout sv api t original = .ok []) ∧
    (accounts ≠ ∅ → ∃ batches, account_fanout sv api t original = .ok batches ∧
      batches.flatten.map BatchEntry.eid = accounts.sort (· ≤ ·) ∧
      ∀ e ∈ batches.flatten,
        e.body = setKey original "StarbaseAssignedAccount" (sv e.eid)) := by
  have hfan : account_fanout sv api t original =
      (if accounts = ∅ then .ok [] else
        .ok (finishBatches ((accountLoop sv (accounts.sort (· ≤ ·)) original [] []).2))) := by
    unfold account_fanout
    rw [hres]
    rfl
  constructor
  · intro h
    rw [hfan, if_pos h]
  · intro h
    rw [hfan, if_neg h]
    refine ⟨_, rfl, ?_, ?_⟩
    · rw [accountLoop_eq_emitAll, finish_emitAll_flatten, List.map_map]
      simp [Function.comp_def]
    · intro e he
      rw [accountLoop_eq_emitAll, finish_emitAll_flatten] at he
      obtain ⟨a, _, rfl⟩ := List.mem_map.mp he
      rfl

/-- A small fully-implemented index plugin used to witness the resolver and
fan-out theorems at concrete inputs. -/
def witnessAPI : AccountIndexAPI where
  get_accounts_by_ids := fun ids => .ok (ids ∩ {"000000000001", "000000000002"})
  get_accounts_by_aliases := fun _ => .ok ∅
  get_accounts_by_ou := fun _ => .ok ∅
  get_accounts_by_tag := fun _ _ => .ok ∅
  get_accounts_by_regions := fun regions =>
    .ok (regions, fun r => if r = "us-east-1" ∨ r = "us-east-2"
      then {"000000000001", "000000000002"} else ∅)
  get_all_accounts := .ok {"000000000001", "000000000002"}
  get_org_roots := .ok ∅

/-- An `AllAccounts: true` template with no exclusions, not operating in the
org root. -/
def allAccountsTemplate : AccountTemplate :=
  { include_accounts :=
      { by_ids := [], by_names := [], by_org_units := [], by_tags := [], all_accounts := true },
    exclude_accounts := none, operate_in_org_root := false }

/-- Witness for C5 on the two-account witness index. -/
theorem claim5_witness :
    resolve_worker_template_accounts witnessAPI allAccountsTemplate =
      .ok ({"000000000001", "000000000002"} : Finset String) ∧
    ∃ batches, account_fanout (fun s => s) witnessAPI allAccountsTemplate [] = .ok batches ∧
      batches.flatten.map BatchEntry.eid =
        ({"000000000001", "000000000002"} : Finset String).sort (· ≤ ·) ∧
      ∀ e ∈ batches.flatten, e.body = setKey [] "StarbaseAssignedAccount" e.eid := by
  have hres : resolve_worker_template_accounts witnessAPI allAccountsTemplate =
      .ok ({"000000000001", "000000000002"} : Finset String) := by rfl
  have hne : ({"000000000001", "000000000002"} : Finset String) ≠ ∅ := by
    intro hcontra
    have : "000000000001" ∈ ({"000000000001", "000000000002"} : Finset String) := by decide
    rw [hcontra] at this
    exact absurd this (Finset.not_mem_empty _)
  exact ⟨hres, (claim5_account_fanout_messages (fun s => s) witnessAPI allAccountsTemplate []
    ({"000000000001", "000000000002"} : Finset String) hres).2 hne⟩

/-- C6: every region assigned to an account by the account/region resolver
lies in the index's enabled set for that account (`p.1 ∈ f r`), in
`include_regions − exclude_regions`, and in the configured `ScopeToRegions`
when that list is non-empty; the returned map has exactly the resolved
account set as its keys, so an empty resolved set yields an empty map. -/
theorem claim6_account_region_map (api : AccountIndexAPI) (scopeCfg : List String)
    (t : AccountRegionTemplate) (accounts dom : Finset String) (f : String → Finset String)
    (hacc : resolve_worker_template_accounts api t.toAccountTemplate = .ok accounts)
    (hreg : api.get_accounts_by_regions (t.include_regions \ t.exclude_regions) = .ok (dom, f))
    (hdom : dom ⊆ t.include_regions \ t.exclude_regions) :
    ∃ m, resolve_worker_template_account_regions api scopeCfg t true = .ok m ∧
      m.map Prod.fst = accounts.sort (· ≤ ·) ∧
      (∀ p ∈ m, ∀ r ∈ p.2, r ∈ t.include_regions \ t.exclude_regions ∧ p.1 ∈ f r ∧
        (scopeCfg ≠ [] → r ∈ scopeCfg)) ∧
      (accounts = ∅ → m = []) := by
  have heq : resolve_worker_template_account_regions api scopeCfg t true =
      .ok ((accounts.sort (· ≤ ·)).map (fun a => (a,
        (if scopeCfg.toFinset ≠ ∅ then dom.filter (fun r => r ∈ scopeCfg.toFinset) else dom).filter
          (fun r => a ∈ f r)))) := by
    unfold resolve_worker_template_account_regions
    simp only [hacc, hreg]
    rfl
  refine ⟨_, heq, ?_, ?_, ?_⟩
  · rw [List.map_map]
    simp [Function.comp_def]
  · intro p hp r hr
    obtain ⟨a, _, rfl⟩ := List.mem_map.mp hp
    rw [Finset.mem_filter] at hr
    by_cases hscope : scopeCfg.toFinset ≠ ∅
    · rw [if_pos hscope, Finset.mem_filter] at hr
      exact ⟨hdom hr.1.1, hr.2, fun _ => List.mem_toFinset.mp hr.1.2⟩
    · rw [if_neg hscope, not_not, List.toFinset_eq_empty_iff] at *
      exact ⟨hdom hr.1, hr.2, fun hne => absurd hscope hne⟩
  · intro h
    rw [h, Finset.sort_empty, List.map_nil]

/-- A two-region account/region template over the witness index. -/
def regionTemplate : AccountRegionTemplate :=
  { toAccountTemplate := allAccountsTemplate,
    include_regions := {"us-east-1", "us-west-1"}, exclude_regions := {"us-west-1"} }

/-- Witness for C6: the witness index, the `AllAccounts` template restricted
to `us-east-1`, and a `ScopeToRegions` of `[us-east-1]`. -/
theorem claim6_witness :
    ∃ m, resolve_worker_template_account_regions witnessAPI ["us-east-1"] regionTemplate true =
      .ok m ∧
      m.map Prod.fst = ({"000000000001", "000000000002"} : Finset String).sort (· ≤ ·) ∧
      (∀ p ∈ m, ∀ r ∈ p.2,
        r ∈ regionTemplate.include_regions \ regionTemplate.exclude_regions ∧
        p.1 ∈ (fun r' => if r' = "us-east-1" ∨ r' = "us-east-2"
          then ({"000000000001", "000000000002"} : Finset String) else ∅) r ∧
        ((["us-east-1"] : List String) ≠ [] → r ∈ (["us-east-1"] : List String))) ∧
      (({"000000000001", "000000000002"} : Finset String) = ∅ → m = []) :=
  claim6_account_region_map witnessAPI ["us-east-1"] regionTemplate
    {"000000000001", "000000000002"}
    (regionTemplate.include_regions \ regionTemplate.exclude_regions) _
    (by rfl) (by rfl) (Finset.Subset.refl _)

/-- A successful account/region resolution keys its map by a sorted account
set, so the keys are pairwise distinct. -/
theorem resolve_account_regions_keys_nodup (api : AccountIndexAPI) (scopeCfg : List String)
    (t : AccountRegionTemplate) (m : List (String × Finset String))
    (hres : resolve_worker_template_account_regions api scopeCfg t true = .ok m) :
    (m.map Prod.fst).Nodup := by
  cases hacc : resolve_worker_template_accounts api t.toAccountTemplate with
  | error e =>
      have herr : resolve_worker_template_account_regions api scopeCfg t true = .error e := by
        unfold resolve_worker_template_account_regions
        simp only [hacc]
        rfl
      rw [herr] at hres
      exact Except.noConfusion hres
  | ok accounts =>
      cases hreg : api.get_accounts_by_regions (t.include_regions \ t.exclude_regions) with
      | error e =>
          have herr : resolve_worker_template_account_regions api scopeCfg t true = .error e := by
            unfold resolve_worker_template_account_regions
            simp only [hacc, hreg]
            rfl
          rw [herr] at hres
          exact Except.noConfusion hres
      | ok df =>
          have heq : resolve_worker_template_account_regions api scopeCfg t true =
              .ok ((accounts.sort (· ≤ ·)).map (fun a => (a, (if scopeCfg.toFinset ≠ ∅ then
                df.1.filter (fun r => r ∈ scopeCfg.toFinset) else df.1).filter
                  (fun r => a ∈ df.2 r)))) := by
            unfold resolve_worker_template_account_regions
            simp only [hacc, hreg]
            rfl
          rw [heq] at hres
          have hm := Except.ok.inj hres
          rw [← hm, List.map_map]
          have hid : (Prod.fst ∘ fun a => ((a : String), (if scopeCfg.toFinset ≠ ∅ then
              df.1.filter (fun r => r ∈ scopeCfg.toFinset) else df.1).filter
                (fun r => a ∈ df.2 r))) = fun a => a := rfl
          rw [hid]
          have := Finset.sort_nodup (· ≤ ·) accounts
          simpa using this

/-- The flattened account/region entry ids `account ++ region` are pairwise
distinct when the map keys are distinct 12-character account ids and each
region set is listed without duplicates. -/
theorem accountRegion_ids_nodup (m : List (String × Finset String))
    (hkeys : (m.map Prod.fst).Nodup) (hlen : ∀ p ∈ m, p.1.length = 12) :
    ((m.map (fun p => (p.1, p.2.sort (· ≤ ·)))).flatMap
      (fun p => p.2.map (fun r => p.1 ++ r))).Nodup := by
  have hpairs : ((m.map (fun p => (p.1, p.2.sort (· ≤ ·)))).flatMap
      (fun p => p.2.map (fun r => p.1 ++ r))) =
      ((m.map (fun p => (p.1, p.2.sort (· ≤ ·)))).flatMap
        (fun p => p.2.map (fun r => (p.1, r)))).map (fun q => q.1 ++ q.2) := by
    rw [List.map_flatMap]
    simp [List.map_map, Function.comp_def]
  rw [hpairs]
  have hflat : (((m.map (fun p => (p.1, p.2.sort (· ≤ ·)))).flatMap
      (fun p => p.2.map (fun r => (p.1, r))))).Nodup := by
    rw [List.nodup_flatMap]
    constructor
    · intro p hp
      obtain ⟨q, _, rfl⟩ := List.mem_map.mp hp
      refine List.Nodup.map ?_ (Finset.sort_nodup (· ≤ ·) q.2)
      intro r r' h
      exact congrArg Prod.snd h
    · have hne : (m.map (fun p => (p.1, p.2.sort (· ≤ ·)))).Pairwise
          (fun p q => p.1 ≠ q.1) := by
        have h1 : ((m.map (fun p => (p.1, p.2.sort (· ≤ ·)))).map Prod.fst).Nodup := by
          rw [List.map_map]
          simpa [Function.comp_def] using hkeys
        exact List.pairwise_map.mp h1
      refine hne.imp ?_
      intro p q hpq x hxp hxq
      obtain ⟨r, _, rfl⟩ := List.mem_map.mp hxp
      obtain ⟨r', _, hx⟩ := List.mem_map.mp hxq
      exact hpq (congrArg Prod.fst hx).symm
  refine List.Nodup.map_on ?_ hflat
  intro x hx y hy hxy
  obtain ⟨p, hp, hxin⟩ := List.mem_flatMap.mp hx
  obtain ⟨q, hq, hyin⟩ := List.mem_flatMap.mp hy
  obtain ⟨r, _, rfl⟩ := List.mem_map.mp hxin
  obtain ⟨r', _, rfl⟩ := List.mem_map.mp hyin
  obtain ⟨p0, hp0, hp0eq⟩ := List.mem_map.mp hp
  obtain ⟨q0, hq0, hq0eq⟩ := List.mem_map.mp hq
  have hplen : p.1.length = 12 := by
    rw [← hp0eq]
    exact hlen p0 hp0
  have hqlen : q.1.length = 12 := by
    rw [← hq0eq]
    exact hlen q0 hq0
  have hdata : p.1.data ++ r.data = q.1.data ++ r'.data := by
    have := congrArg String.data hxy
    simpa using this
  have hlen' : p.1.data.length = q.1.data.length := by
    have h1 : p.1.data.length = 12 := hplen
    have h2 : q.1.data.length = 12 := hqlen
    rw [h1, h2]
  obtain ⟨hfst, hsnd⟩ := List.append_inj hdata hlen'
  rw [Prod.mk.injEq]
  exact ⟨String.ext hfst, String.ext hsnd⟩

/-- C7: every queue batch emitted by the core has at most 10 entries with
pairwise-distinct ids.  Stage-1 dispatcher batches carry the monotonically
increasing integer ids `1..n` across the worker's full template list; ACCOUNT
batches are identified by the (distinct) target account ids; ACCOUNT_REGION
batches are identified by `account ++ region`, distinct because account ids
are 12-character strings and each account's region set has no duplicates. -/
theorem claim7_batches_bounded_ids_unique :
    (∀ (w : String) (templates : List String),
      (∀ b ∈ get_template_batch w templates 0,
        b.length ≤ 10 ∧ (b.map BatchEntry.eid).Nodup) ∧
      (get_template_batch w templates 0).flatten.map BatchEntry.eid =
        (List.range' 1 templates.length).map Nat.repr) ∧
    (∀ (α : Type) (sv : String → α) (api : AccountIndexAPI) (t : AccountTemplate)
      (original : TMap α) (accounts : Finset String),
      resolve_worker_template_accounts api t = .ok accounts →
      ∃ batches, account_fanout sv api t original = .ok batches ∧
        ∀ b ∈ batches, b.length ≤ 10 ∧ (b.map BatchEntry.eid).Nodup) ∧
    (∀ (α : Type) (sv : String → α) (api : AccountIndexAPI) (scopeCfg : List String)
      (t : AccountRegionTemplate) (original : TMap α) (m : List (String × Finset String)),
      resolve_worker_template_account_regions api scopeCfg t true = .ok m →
      (∀ p ∈ m, p.1.length = 12) →
      ∃ batches, account_region_fanout sv api scopeCfg t original = .ok batches ∧
        ∀ b ∈ batches, b.length ≤ 10 ∧ (b.map BatchEntry.eid).Nodup) := by
  refine ⟨?_, ?_, ?_⟩
  · intro w templates
    constructor
    · exact get_template_batch_ok w templates templates.length 0 (by omega)
    · rw [get_template_batch_flatten w templates templates.length 0 (by omega)]
      rw [List.drop_zero, List.map_map, ← List.enumFrom_map_fst 1 templates, List.map_map]
      rfl
  · intro α sv api t original accounts hres
    have hfan : account_fanout sv api t original =
        (if accounts = ∅ then .ok [] else
          .ok (finishBatches ((accountLoop sv (accounts.sort (· ≤ ·)) original [] []).2))) := by
      unfold account_fanout
      rw [hres]
      rfl
    by_cases h : accounts = ∅
    · refine ⟨[], by rw [hfan, if_pos h], ?_⟩
      intro b hb
      exact absurd hb (List.not_mem_nil b)
    · refine ⟨_, by rw [hfan, if_neg h], ?_⟩
      rw [accountLoop_eq_emitAll]
      refine emitAll_batches_ok _ [] [] ?_ (by simp) ?_
      · intro b hb
        exact absurd hb (List.not_mem_nil b)
      · rw [List.nil_append, List.map_map]
        have hid : (BatchEntry.eid ∘ fun a =>
            BatchEntry.mk a (setKey original "StarbaseAssignedAccount" (sv a))) =
            fun a => a := rfl
        rw [hid]
        simpa using Finset.sort_nodup (· ≤ ·) accounts
  · intro α sv api scopeCfg t original m hres hlen
    have hfan : account_region_fanout sv api scopeCfg t original =
        (if (m.map (fun p => p.2.card)).sum = 0 then .ok []
         else .ok (finishBatches ((accountRegionLoop sv
           (m.map (fun p => (p.1, p.2.sort (· ≤ ·)))) original [] []).2))) := by
      unfold account_region_fanout
      rw [hres]
      rfl
    by_cases h : (m.map (fun p => p.2.card)).sum = 0
    · refine ⟨[], by rw [hfan, if_pos h], ?_⟩
      intro b hb
      exact absurd hb (List.not_mem_nil b)
    · refine ⟨_, by rw [hfan, if_neg h], ?_⟩
      rw [accountRegionLoop_eq_emitAll sv original _ original [] [] (fun a r => rfl)]
      refine emitAll_batches_ok _ [] [] ?_ (by simp) ?_
      · intro b hb
        exact absurd hb (List.not_mem_nil b)
      · rw [List.nil_append, List.map_flatMap]
        have hkeys := resolve_account_regions_keys_nodup api scopeCfg t m hres
        have hnodup := accountRegion_ids_nodup m hkeys hlen
        have hsame : (fun (p : String × List String) => (p.2.map (fun r =>
            BatchEntry.mk (p.1 ++ r) (assignPair sv original p.1 r))).map BatchEntry.eid) =
            fun p => p.2.map (fun r => p.1 ++ r) := by
          funext p
          rw [List.map_map]
          rfl
        rw [hsame]
        exact hnodup

/-- The value the account/region resolver returns for `regionTemplate` on the
witness index with no region scope configured. -/
def mWitness : List (String × Finset String) :=
  (({"000000000001", "000000000002"} : Finset String).sort (· ≤ ·)).map
    (fun a => (a, (regionTemplate.include_regions \ regionTemplate.exclude_regions).filter
      (fun r => a ∈ (if r = "us-east-1" ∨ r = "us-east-2"
        then ({"000000000001", "000000000002"} : Finset String) else ∅))))

/-- Witness for C7 on concrete stage-1, ACCOUNT and ACCOUNT_REGION inputs. -/
theorem claim7_witness :
    ((∀ b ∈ get_template_batch "W" ["W/a.yaml", "W/b.yaml"] 0,
        b.length ≤ 10 ∧ (b.map BatchEntry.eid).Nodup) ∧
      (get_template_batch "W" ["W/a.yaml", "W/b.yaml"] 0).flatten.map BatchEntry.eid =
        (List.range' 1 (["W/a.yaml", "W/b.yaml"] : List String).length).map Nat.repr) ∧
    (∃ batches, account_fanout (fun s => s) witnessAPI allAccountsTemplate [] = .ok batches ∧
      ∀ b ∈ batches, b.length ≤ 10 ∧ (b.map BatchEntry.eid).Nodup) ∧
    (∃ batches, account_region_fanout (fun s => s) witnessAPI [] regionTemplate [] =
      .ok batches ∧
      ∀ b ∈ batches, b.length ≤ 10 ∧ (b.map BatchEntry.eid).Nodup) :=
  ⟨claim7_batches_bounded_ids_unique.1 "W" ["W/a.yaml", "W/b.yaml"],
   claim7_batches_bounded_ids_unique.2.1 String (fun s => s) witnessAPI allAccountsTemplate []
     {"000000000001", "000000000002"} (by rfl),
   claim7_batches_bounded_ids_unique.2.2 String (fun s => s) witnessAPI [] regionTemplate []
     mWitness (by rfl)
     (by
       intro p hp
       obtain ⟨a, ha, rfl⟩ := List.mem_map.mp hp
       have hmem : a ∈ ({"000000000001", "000000000002"} : Finset String) :=
         (Finset.mem_sort _).mp ha
       rcases Finset.mem_insert.mp hmem with h | h
       · rw [h]
         rfl
       · rw [Finset.mem_singleton.mp h]
         rfl)⟩

/-- Witness for C10: a worker whose prefix matches the changed key but whose
`InvocationSources` lacks `S3` is not matched, and the record is dropped
without error. -/
theorem claim10_witness :
    fan_out_s3_events "template-bucket"
      [("W1", ⟨["EVENTBRIDGE_TIMED_EVENT"], "W1/"⟩)]
      ⟨"template-bucket", "W1/template1.yaml"⟩ = .ok none :=
  (claim10_s3_worker_matching "template-bucket"
      [("W1", ⟨["EVENTBRIDGE_TIMED_EVENT"], "W1/"⟩)]
      ⟨"template-bucket", "W1/template1.yaml"⟩ rfl (by decide)).2 (by decide)

end Starfleet
